import Mathlib

/-!
Verification development for the HummiGuard AI monitoring loop.

The definitions below are a shallow embedding of the client-side monitoring
component (the `HummiGuardAI` React component) and of the JSON-extraction
step of the `/api/analyze` route.  React `useState` cells become fields of
`ComponentState`; each event handler / effect body becomes a function on
that state; the asynchronous `analyzeWithAI` call is split into a start
step (which records the closure-captured `threshold` and `analysisInterval`
values of the invoking render) and a completion step parameterised by the
outcome of the network round trip.
-/

namespace HummiGuard

/-- The `confidence` field of an analysis result: one of high/medium/low. -/
inductive Confidence where
  | high
  | medium
  | low
deriving DecidableEq

/-- `AnalysisResult`, as in the component's interface: `level` (an integer,
-1 or 0..100), `confidence`, `description`, `feeder_visible`, and an
optional `timestamp` attached client-side. -/
structure AnalysisResult where
  level : Int
  confidence : Confidence
  description : String
  feeder_visible : Bool
  timestamp : Option String := none
deriving DecidableEq

/-- `HistoryEntry`, as in the component's interface. -/
structure HistoryEntry where
  level : Int
  time : String
  confidence : Confidence
deriving DecidableEq

/-- The values that a running `analyzeWithAI` invocation captured from its
defining render's closure and still uses at completion time:
`threshold` (for the `result.level < threshold` comparison) and
`analysisInterval` (for the `setCountdown(analysisInterval)` in `finally`). -/
structure InFlight where
  threshold : Int
  analysisInterval : Nat
deriving DecidableEq

/-- The component's `useState` cells, plus `inflight`: the list of pending
`analyzeWithAI` invocations (each with its captured closure values).  The
source keeps at most one pending invocation; we model a list so that
"at most one analysis in flight" is a provable property, not a modelling
assumption. -/
structure ComponentState where
  isRunning : Bool
  isAnalyzing : Bool
  nectarLevel : Option Int
  alertActive : Bool
  alertMuted : Bool
  threshold : Int
  cameraError : Option String
  lastAnalysis : Option AnalysisResult
  analysisInterval : Nat
  countdown : Nat
  history : List HistoryEntry
  inflight : List InFlight
deriving DecidableEq

/-- The initial `useState` values: `isRunning=false`, `isAnalyzing=false`,
`nectarLevel=null`, `alertActive=false`, `alertMuted=false`, `threshold=25`,
`cameraError=null`, `lastAnalysis=null`, `analysisInterval=30`,
`countdown=0`, `history=[]`. -/
def initState : ComponentState :=
  { isRunning := false,
    isAnalyzing := false,
    nectarLevel := none,
    alertActive := false,
    alertMuted := false,
    threshold := 25,
    cameraError := none,
    lastAnalysis := none,
    analysisInterval := 30,
    countdown := 0,
    history := [],
    inflight := [] }

/-- `startCamera`, success branch: `setIsRunning(true)`, `setCameraError(null)`,
`setCountdown(5)`. -/
def startCamera (s : ComponentState) : ComponentState :=
  { s with isRunning := true, cameraError := none, countdown := 5 }

/-- `startCamera`, catch branch: records the fixed error message; no other
state cell is touched. -/
def cameraDeniedMsg : String :=
  "Camera access denied. Please allow camera permissions and refresh."

def startCameraFail (s : ComponentState) : ComponentState :=
  { s with cameraError := some cameraDeniedMsg }

/-- `stopCamera`: `setIsRunning(false)`, `setAlertActive(false)`, `setCountdown(0)`. -/
def stopCamera (s : ComponentState) : ComponentState :=
  { s with isRunning := false, alertActive := false, countdown := 0 }

/-- The countdown timer effect: while `isRunning && countdown > 0`, one
second later `setCountdown(c => c - 1)` fires; otherwise no timer is armed. -/
def tickSecond (s : ComponentState) : ComponentState :=
  if s.isRunning && decide (0 < s.countdown) then
    { s with countdown := s.countdown - 1 }
  else s

/-- The "Scan Now" button: `onClick={() => setCountdown(0)}`; the button is
rendered only while `isRunning` and is `disabled` while `isAnalyzing`. -/
def scanNowClick (s : ComponentState) : ComponentState :=
  if s.isRunning && !s.isAnalyzing then { s with countdown := 0 } else s

/-- The threshold range input: `onChange={(e) => setThreshold(Number(e.target.value))}`. -/
def setThresholdInput (s : ComponentState) (t : Int) : ComponentState :=
  { s with threshold := t }

/-- An interval button: `onClick={() => setAnalysisInterval(sec)}`. -/
def setIntervalClick (s : ComponentState) (n : Nat) : ComponentState :=
  { s with analysisInterval := n }

/-- The mute button in the alert banner: `onClick={() => setAlertMuted(!alertMuted)}`. -/
def toggleMuteClick (s : ComponentState) : ComponentState :=
  { s with alertMuted := !s.alertMuted }

/-- The head of `analyzeWithAI`: `if (isAnalyzing) return; setIsAnalyzing(true)`,
and the asynchronous body starts running with the current render's
`threshold` and `analysisInterval` captured in its closure. -/
def analyzeStart (s : ComponentState) : ComponentState :=
  if s.isAnalyzing then s
  else
    { s with isAnalyzing := true,
             inflight := s.inflight ++ [⟨s.threshold, s.analysisInterval⟩] }

/-- The countdown-zero trigger effect:
`if (isRunning && countdown === 0 && !isAnalyzing) analyzeWithAI()`. -/
def triggerEffect (s : ComponentState) : ComponentState :=
  if s.isRunning && decide (s.countdown = 0) && !s.isAnalyzing then
    analyzeStart s
  else s

/-- The success path of `analyzeWithAI` once a result has been obtained:
`setLastAnalysis({...result, timestamp})`, and, only when
`result.feeder_visible && result.level >= 0`:
`setNectarLevel(result.level)`,
`setHistory(prev => [...prev.slice(-19), {level, time, confidence}])`
(JS `slice(-19)` keeps the last 19 entries), and
`setAlertActive(result.level < threshold)` with the closure-captured
threshold. -/
def applyReading (s : ComponentState) (cap : InFlight) (r : AnalysisResult)
    (ts : String) : ComponentState :=
  let s1 := { s with lastAnalysis := some { r with timestamp := some ts } }
  if r.feeder_visible && decide (0 ≤ r.level) then
    { s1 with
        nectarLevel := some r.level,
        history := s.history.drop (s.history.length - 19) ++
          [⟨r.level, ts, r.confidence⟩],
        alertActive := decide (r.level < cap.threshold) }
  else s1

/-- Completion of one `analyzeWithAI` invocation.  `outcome` is the result of
the round trip: `.ok r` when the frame was captured, the endpoint answered
200 and the body parsed, `.error msg` for every throwing path
(frame-capture failure, transport failure, non-200 response, body-parse
failure) which lands in the catch block and records the synthetic failure
result.  The `finally` block then runs `setIsAnalyzing(false)` and
`setCountdown(analysisInterval)` with the closure-captured interval. -/
def analyzeComplete (s : ComponentState) (cap : InFlight)
    (outcome : Except String AnalysisResult) (ts : String) : ComponentState :=
  let s1 :=
    match outcome with
    | .ok r => applyReading s cap r ts
    | .error msg =>
        { s with lastAnalysis := some ⟨-1, .low, "Error: " ++ msg, false, some ts⟩ }
  { s1 with isAnalyzing := false, countdown := cap.analysisInterval }

/-- The events the component reacts to. -/
inductive Ev where
  | tick
  | trigger
  | scanNow
  | stop
  | startOk
  | startFail
  | setThr (t : Int)
  | setIv (n : Nat)
  | toggleMute
  | complete (outcome : Except String AnalysisResult) (ts : String)

/-- Resolution of a pending network round trip: if an `analyzeWithAI`
invocation is pending, it completes; with nothing pending the event is a
no-op (in the source a completion only ever arrives for a pending call). -/
def completeAux (s : ComponentState) (pending : List InFlight)
    (outcome : Except String AnalysisResult) (ts : String) : ComponentState :=
  match pending with
  | [] => s
  | cap :: rest => analyzeComplete { s with inflight := rest } cap outcome ts

/-- One event step of the component. -/
def step (s : ComponentState) : Ev → ComponentState
  | .tick => tickSecond s
  | .trigger => triggerEffect s
  | .scanNow => scanNowClick s
  | .stop => stopCamera s
  | .startOk => startCamera s
  | .startFail => startCameraFail s
  | .setThr t => setThresholdInput s t
  | .setIv n => setIntervalClick s n
  | .toggleMute => toggleMuteClick s
  | .complete outcome ts => completeAux s s.inflight outcome ts

/-- States reachable from the initial state by event steps. -/
inductive Reachable : ComponentState → Prop where
  | init : Reachable initState
  | next : ∀ {s} (e : Ev), Reachable s → Reachable (step s e)

theorem applyReading_inflight (s : ComponentState) (cap : InFlight)
    (r : AnalysisResult) (ts : String) :
    (applyReading s cap r ts).inflight = s.inflight := by
  unfold applyReading
  split <;> rfl

theorem applyReading_isAnalyzing (s : ComponentState) (cap : InFlight)
    (r : AnalysisResult) (ts : String) :
    (applyReading s cap r ts).isAnalyzing = s.isAnalyzing := by
  unfold applyReading
  split <;> rfl

theorem analyzeComplete_inflight (s : ComponentState) (cap : InFlight)
    (o : Except String AnalysisResult) (ts : String) :
    (analyzeComplete s cap o ts).inflight = s.inflight := by
  cases o <;> simp [analyzeComplete, applyReading_inflight]

theorem analyzeComplete_isAnalyzing (s : ComponentState) (cap : InFlight)
    (o : Except String AnalysisResult) (ts : String) :
    (analyzeComplete s cap o ts).isAnalyzing = false := by
  cases o <;> simp [analyzeComplete]

theorem applyReading_history_cases (s : ComponentState) (cap : InFlight)
    (r : AnalysisResult) (ts : String) :
    (applyReading s cap r ts).history = s.history ∨
      (applyReading s cap r ts).history.length ≤ 20 := by
  unfold applyReading
  split
  · right
    simp only [List.length_append, List.length_drop, List.length_cons,
      List.length_nil]
    omega
  · left; rfl

theorem completeAux_inflight_len (s : ComponentState) (l : List InFlight)
    (o : Except String AnalysisResult) (ts : String)
    (hfl : s.inflight = l)
    (ih : l.length = (if s.isAnalyzing then 1 else 0)) :
    (completeAux s l o ts).inflight.length =
      (if (completeAux s l o ts).isAnalyzing then 1 else 0) := by
  cases l with
  | nil => rw [← hfl] at ih; simpa [completeAux] using ih
  | cons cap rest =>
    have hrest : rest = [] := by
      cases rest with
      | nil => rfl
      | cons b bs =>
        exfalso
        by_cases ha : s.isAnalyzing <;> simp [ha] at ih
    subst hrest
    simp [completeAux, analyzeComplete_inflight, analyzeComplete_isAnalyzing]

theorem completeAux_history_len (s : ComponentState) (l : List InFlight)
    (o : Except String AnalysisResult) (ts : String)
    (ih : s.history.length ≤ 20) :
    (completeAux s l o ts).history.length ≤ 20 := by
  cases l with
  | nil => simpa [completeAux] using ih
  | cons cap rest =>
    cases o with
    | ok r =>
        simp only [completeAux, analyzeComplete]
        rcases applyReading_history_cases
            { s with inflight := rest } cap r ts with hsame | hle
        · simpa [hsame] using ih
        · simpa using hle
    | error msg => simpa [completeAux, analyzeComplete] using ih

theorem inflight_matches_analyzing {s : ComponentState} (h : Reachable s) :
    s.inflight.length = (if s.isAnalyzing then 1 else 0) := by
  induction h with
  | init => rfl
  | @next s e h ih =>
    cases e with
    | tick =>
        simp only [step, tickSecond]
        split <;> simpa using ih
    | trigger =>
        simp only [step, triggerEffect]
        split
        · rename_i hc
          simp only [Bool.and_eq_true, Bool.not_eq_true', decide_eq_true_eq] at hc
          simp [analyzeStart, hc.2, ih]
        · exact ih
    | scanNow =>
        simp only [step, scanNowClick]
        split <;> simpa using ih
    | stop => simpa [step, stopCamera] using ih
    | startOk => simpa [step, startCamera] using ih
    | startFail => simpa [step, startCameraFail] using ih
    | setThr t => simpa [step, setThresholdInput] using ih
    | setIv n => simpa [step, setIntervalClick] using ih
    | toggleMute => simpa [step, toggleMuteClick] using ih
    | complete o ts =>
        simp only [step]
        exact completeAux_inflight_len s s.inflight o ts rfl ih

theorem history_bounded {s : ComponentState} (h : Reachable s) :
    s.history.length ≤ 20 := by
  induction h with
  | init => simp [initState]
  | @next s e h ih =>
    cases e with
    | tick =>
        simp only [step, tickSecond]
        split <;> simpa using ih
    | trigger =>
        simp only [step, triggerEffect, analyzeStart]
        split
        · split <;> simpa using ih
        · exact ih
    | scanNow =>
        simp only [step, scanNowClick]
        split <;> simpa using ih
    | stop => simpa [step, stopCamera] using ih
    | startOk => simpa [step, startCamera] using ih
    | startFail => simpa [step, startCameraFail] using ih
    | setThr t => simpa [step, setThresholdInput] using ih
    | setIv n => simpa [step, setIntervalClick] using ih
    | toggleMute => simpa [step, toggleMuteClick] using ih
    | complete o ts =>
        simp only [step]
        exact completeAux_history_len s s.inflight o ts ih

/-- A state with a known level reading of 20 and threshold 15, alert not
active (20 is not below 15). -/
def knownLevelState : ComponentState :=
  { initState with nectarLevel := some 20, threshold := 15 }

/-- C1 counterexample: with last known level 20 and threshold 15 (alert off),
the user sets the threshold to 25.  The claim demands that `alertActive` is
immediately recomputed to `nectarLevel < 25 = true`, but the range input's
`onChange` handler only calls `setThreshold`, so `alertActive` stays false. -/
theorem threshold_change_no_recompute_cex :
    (setThresholdInput knownLevelState 25).nectarLevel = some 20 ∧
    ((20 : Int) < 25) ∧
    (setThresholdInput knownLevelState 25).alertActive = false := by
  refine ⟨rfl, by norm_num, rfl⟩

/-- C1 amended: a threshold change updates only the `threshold` cell and
leaves every other cell — in particular `alertActive` — untouched; moreover
the only events that ever change `alertActive` are completion of an
analysis cycle and stopping the session. -/
theorem threshold_change_updates_only_threshold :
    (∀ (s : ComponentState) (t : Int),
      (setThresholdInput s t).threshold = t ∧
      (setThresholdInput s t).alertActive = s.alertActive ∧
      (setThresholdInput s t).nectarLevel = s.nectarLevel ∧
      (setThresholdInput s t).history = s.history ∧
      (setThresholdInput s t).lastAnalysis = s.lastAnalysis ∧
      (setThresholdInput s t).countdown = s.countdown ∧
      (setThresholdInput s t).isRunning = s.isRunning ∧
      (setThresholdInput s t).isAnalyzing = s.isAnalyzing ∧
      (setThresholdInput s t).alertMuted = s.alertMuted ∧
      (setThresholdInput s t).analysisInterval = s.analysisInterval) ∧
    (∀ (s : ComponentState) (e : Ev), (step s e).alertActive ≠ s.alertActive →
      (∃ o ts, e = Ev.complete o ts) ∨ e = Ev.stop) := by
  constructor
  · intro s t
    refine ⟨rfl, rfl, rfl, rfl, rfl, rfl, rfl, rfl, rfl, rfl⟩
  · intro s e hne
    cases e with
    | tick =>
        exfalso; apply hne
        simp only [step, tickSecond]; split <;> rfl
    | trigger =>
        exfalso; apply hne
        simp only [step, triggerEffect, analyzeStart]
        split
        · split <;> rfl
        · rfl
    | scanNow =>
        exfalso; apply hne
        simp only [step, scanNowClick]; split <;> rfl
    | stop => exact Or.inr rfl
    | startOk => exact absurd rfl hne
    | startFail => exact absurd rfl hne
    | setThr t => exact absurd rfl hne
    | setIv n => exact absurd rfl hne
    | toggleMute => exact absurd rfl hne
    | complete o ts => exact Or.inl ⟨o, ts, rfl⟩

/-- Witness for the C1 amended theorem at concrete inputs: the threshold part
at `initState` with value 30, and the mutation-ownership part at a state with
the alert on and the stop event. -/
theorem threshold_change_updates_only_threshold_witness :
    (setThresholdInput initState 30).threshold = 30 ∧
    ((∃ o ts, Ev.stop = Ev.complete o ts) ∨ Ev.stop = Ev.stop) :=
  ⟨(threshold_change_updates_only_threshold.1 initState 30).1,
   threshold_change_updates_only_threshold.2
     { initState with isRunning := true, alertActive := true } Ev.stop
     (by decide)⟩

/-- C3: completing a cycle whose parsed result has `feeder_visible = false`
leaves `nectarLevel`, `alertActive` and `history` exactly as they were, while
`lastAnalysis` is updated to the result with the locally-attached timestamp. -/
theorem invisible_result_preserves_state (s : ComponentState) (cap : InFlight)
    (r : AnalysisResult) (ts : String) (h : r.feeder_visible = false) :
    (analyzeComplete s cap (.ok r) ts).nectarLevel = s.nectarLevel ∧
    (analyzeComplete s cap (.ok r) ts).alertActive = s.alertActive ∧
    (analyzeComplete s cap (.ok r) ts).history = s.history ∧
    (analyzeComplete s cap (.ok r) ts).lastAnalysis =
      some { r with timestamp := some ts } := by
  simp [analyzeComplete, applyReading, h]

/-- Witness for C3 at a concrete failed-scan result. -/
theorem invisible_result_preserves_state_witness :
    (AnalysisResult.mk (-1) .low "no feeder" false none).feeder_visible = false ∧
    ((analyzeComplete initState ⟨25, 30⟩
        (.ok (AnalysisResult.mk (-1) .low "no feeder" false none)) "t1").nectarLevel =
      initState.nectarLevel ∧
    (analyzeComplete initState ⟨25, 30⟩
        (.ok (AnalysisResult.mk (-1) .low "no feeder" false none)) "t1").alertActive =
      initState.alertActive ∧
    (analyzeComplete initState ⟨25, 30⟩
        (.ok (AnalysisResult.mk (-1) .low "no feeder" false none)) "t1").history =
      initState.history ∧
    (analyzeComplete initState ⟨25, 30⟩
        (.ok (AnalysisResult.mk (-1) .low "no feeder" false none)) "t1").lastAnalysis =
      some (AnalysisResult.mk (-1) .low "no feeder" false (some "t1"))) :=
  ⟨rfl, invisible_result_preserves_state initState ⟨25, 30⟩
    (AnalysisResult.mk (-1) .low "no feeder" false none) "t1" rfl⟩

/-- C4: an accepted reading (`feeder_visible = true`, `level ≥ 0`) sets the
current level, appends a history entry after keeping only the last 19 prior
entries (so a full 20-entry history loses its oldest entry, FIFO), and sets
`alertActive = (level < threshold)` with the cycle's captured threshold;
moreover the history of every reachable state has at most 20 entries. -/
theorem accepted_reading_updates (s : ComponentState) (cap : InFlight)
    (r : AnalysisResult) (ts : String)
    (hv : r.feeder_visible = true) (hl : 0 ≤ r.level) :
    (applyReading s cap r ts).nectarLevel = some r.level ∧
    (applyReading s cap r ts).history =
      s.history.drop (s.history.length - 19) ++ [⟨r.level, ts, r.confidence⟩] ∧
    (s.history.length = 20 →
      (applyReading s cap r ts).history =
        s.history.drop 1 ++ [⟨r.level, ts, r.confidence⟩]) ∧
    (applyReading s cap r ts).alertActive = decide (r.level < cap.threshold) ∧
    (applyReading s cap r ts).history.length ≤ 20 ∧
    (∀ s' : ComponentState, Reachable s' → s'.history.length ≤ 20) := by
  have hcond : (r.feeder_visible && decide (0 ≤ r.level)) = true := by
    simp [hv, hl]
  refine ⟨?_, ?_, ?_, ?_, ?_, ?_⟩
  · simp [applyReading, hcond]
  · simp [applyReading, hcond]
  · intro h20; simp [applyReading, hcond, h20]
  · simp [applyReading, hcond]
  · simp only [applyReading, hcond, if_true, List.length_append,
      List.length_drop, List.length_cons, List.length_nil]
    omega
  · intro s' hs'; exact history_bounded hs'

/-- Witness for C4: a concrete accepted reading of level 18 against captured
threshold 25 applied to the initial state. -/
theorem accepted_reading_updates_witness :
    ((AnalysisResult.mk 18 .high "ok" true none).feeder_visible = true ∧
      (0 : Int) ≤ 18) ∧
    (applyReading initState ⟨25, 30⟩
        (AnalysisResult.mk 18 .high "ok" true none) "t2").nectarLevel = some 18 ∧
    (applyReading initState ⟨25, 30⟩
        (AnalysisResult.mk 18 .high "ok" true none) "t2").alertActive = true := by
  have h := accepted_reading_updates initState ⟨25, 30⟩
    (AnalysisResult.mk 18 .high "ok" true none) "t2" rfl (by norm_num)
  exact ⟨⟨rfl, by norm_num⟩, h.1, by rw [h.2.2.2.1]; rfl⟩

/-- C5: every reachable state has at most one analysis in flight, and while
`isAnalyzing` holds, neither the zero-countdown trigger effect nor the
scan-now button (nor `analyzeWithAI` itself, whose first line returns) can
start a second request. -/
theorem at_most_one_inflight :
    (∀ s : ComponentState, Reachable s → s.inflight.length ≤ 1) ∧
    (∀ s : ComponentState, s.isAnalyzing = true →
      analyzeStart s = s ∧ triggerEffect s = s ∧ scanNowClick s = s) := by
  constructor
  · intro s hs
    have h := inflight_matches_analyzing hs
    by_cases ha : s.isAnalyzing <;> simp [ha] at h <;> simp [h]
  · intro s ha
    refine ⟨?_, ?_, ?_⟩
    · simp [analyzeStart, ha]
    · simp [triggerEffect, ha]
    · simp [scanNowClick, ha]

/-- Witness for C5: the initial state is reachable and has no request in
flight; a state marked analyzing is left unchanged by the guards. -/
theorem at_most_one_inflight_witness :
    initState.inflight.length ≤ 1 ∧
    (analyzeStart { initState with isAnalyzing := true } =
        { initState with isAnalyzing := true } ∧
      triggerEffect { initState with isAnalyzing := true } =
        { initState with isAnalyzing := true } ∧
      scanNowClick { initState with isAnalyzing := true } =
        { initState with isAnalyzing := true }) :=
  ⟨at_most_one_inflight.1 initState Reachable.init,
   at_most_one_inflight.2 { initState with isAnalyzing := true } rfl⟩

/-- C6 counterexample: a session is started (interval 30), scan-now zeroes
the countdown, the trigger starts a cycle capturing interval 30, the user
then selects interval 60 while the request is in flight, and the cycle
completes: the countdown is reset to 30 — the interval captured when the
cycle started — not to the currently configured 60, because the `finally`
block reads `analysisInterval` from the invoking render's closure. -/
theorem countdown_reset_stale_interval_cex :
    (step (step (step (step (step initState .startOk) .scanNow) .trigger)
        (.setIv 60))
        (.complete (.ok (AnalysisResult.mk 80 .high "ok" true none)) "t3")).countdown
      = 30 ∧
    (step (step (step (step (step initState .startOk) .scanNow) .trigger)
        (.setIv 60))
        (.complete (.ok (AnalysisResult.mk 80 .high "ok" true none)) "t3")).analysisInterval
      = 60 ∧
    (30 : Nat) ≠ 60 := by
  refine ⟨by decide, by decide, by decide⟩

/-- C6 amended: after any completed cycle — success or synthetic failure —
the countdown is reset exactly to the `analysisInterval` value that the
cycle captured when it started (a change made while the cycle was in flight
takes effect only from the following cycle), and `isAnalyzing` is cleared. -/
theorem countdown_reset_captured_interval (s : ComponentState) (cap : InFlight)
    (outcome : Except String AnalysisResult) (ts : String) :
    (analyzeComplete s cap outcome ts).countdown = cap.analysisInterval ∧
    (analyzeComplete s cap outcome ts).isAnalyzing = false := by
  cases outcome <;> exact ⟨rfl, rfl⟩

/-- C7: every failing cycle resolves — without throwing — to the synthetic
failure result `level = -1, confidence = low, feeder_visible = false` with a
human-readable description, recorded as the last analysis with a local
timestamp, leaving level, alert and history untouched and the loop ready
for the next cycle. -/
theorem failure_resolves_synthetic (s : ComponentState) (cap : InFlight)
    (msg : String) (ts : String) :
    (analyzeComplete s cap (.error msg) ts).lastAnalysis =
      some (AnalysisResult.mk (-1) .low ("Error: " ++ msg) false (some ts)) ∧
    (analyzeComplete s cap (.error msg) ts).isAnalyzing = false ∧
    (analyzeComplete s cap (.error msg) ts).countdown = cap.analysisInterval ∧
    (analyzeComplete s cap (.error msg) ts).nectarLevel = s.nectarLevel ∧
    (analyzeComplete s cap (.error msg) ts).alertActive = s.alertActive ∧
    (analyzeComplete s cap (.error msg) ts).history = s.history :=
  ⟨rfl, rfl, rfl, rfl, rfl, rfl⟩

/-- C8: stopping the session always yields `isRunning = false`,
`alertActive = false` and `countdown = 0`, whatever the prior state. -/
theorem stop_resets (s : ComponentState) :
    (stopCamera s).isRunning = false ∧
    (stopCamera s).alertActive = false ∧
    (stopCamera s).countdown = 0 :=
  ⟨rfl, rfl, rfl⟩

/-- C10: a successful camera start always sets the countdown to 5 — never to
the configured interval, which is one of 10/30/60/120 — so five countdown
ticks later the countdown is 0 and, if no analysis is in flight, the trigger
effect starts the first cycle. -/
theorem start_countdown_five :
    (∀ s : ComponentState, (startCamera s).countdown = 5) ∧
    (∀ s : ComponentState,
      (s.analysisInterval = 10 ∨ s.analysisInterval = 30 ∨
        s.analysisInterval = 60 ∨ s.analysisInterval = 120) →
      (startCamera s).countdown ≠ s.analysisInterval) ∧
    (∀ s : ComponentState, s.isAnalyzing = false →
      ((tickSecond^[5]) (startCamera s)).countdown = 0 ∧
      (triggerEffect ((tickSecond^[5]) (startCamera s))).isAnalyzing = true) := by
  have hiter : ∀ s : ComponentState, (tickSecond^[5]) (startCamera s) =
      { s with isRunning := true, cameraError := none, countdown := 0 } := by
    intro s
    show tickSecond (tickSecond (tickSecond (tickSecond (tickSecond
      (startCamera s))))) = _
    simp [startCamera, tickSecond]
  refine ⟨fun s => rfl, ?_, ?_⟩
  · intro s hmem heq
    rcases hmem with h | h | h | h <;> rw [h] at heq <;> simp [startCamera] at heq
  · intro s ha
    rw [hiter s]
    constructor
    · rfl
    · simp [triggerEffect, analyzeStart, ha]

/-- Witness for C10 at the initial state (interval 30, not analyzing). -/
theorem start_countdown_five_witness :
    (initState.analysisInterval = 30 ∧
      (startCamera initState).countdown ≠ initState.analysisInterval) ∧
    (initState.isAnalyzing = false ∧
      ((tickSecond^[5]) (startCamera initState)).countdown = 0 ∧
      (triggerEffect ((tickSecond^[5]) (startCamera initState))).isAnalyzing = true) :=
  ⟨⟨rfl, start_countdown_five.2.1 initState (Or.inr (Or.inl rfl))⟩,
   ⟨rfl, start_countdown_five.2.2 initState rfl⟩⟩


/-- `playAlertSound` (the `useCallback` with dependency `[alertMuted]`):
its first line is `if (alertMuted) return`, so a cue is emitted exactly when
the mute flag is off. -/
def playAlertSound (alertMuted : Bool) : Bool := !alertMuted

/-- A live `setInterval` handle together with its period in milliseconds. -/
structure AlertTimer where
  period : Nat
deriving DecidableEq

/-- Runtime of the alert sound loop effect: the currently installed interval
timer (if any) and the dependency values `(alertActive, alertMuted)` of the
last run of the effect (`none` before the first run).  The effect's third
dependency, `playAlertSound`, is a `useCallback` over `[alertMuted]`, so it
changes exactly when `alertMuted` does and adds nothing to the pair. -/
structure AlertRuntime where
  timer : Option AlertTimer
  deps : Option (Bool × Bool)
deriving DecidableEq

/-- Body of the alert sound loop effect:
`if (!alertActive || alertMuted) return;` installs nothing; otherwise
`setInterval(playAlertSound, 2000)` is installed and `playAlertSound()` is
called once immediately.  Returns the installed timer (if any) and whether
an immediate cue was emitted. -/
def alertEffectBody (alertActive alertMuted : Bool) : Option AlertTimer × Bool :=
  if !alertActive || alertMuted then (none, false)
  else (some ⟨2000⟩, playAlertSound alertMuted)

/-- One React commit seen by the alert effect: if the dependency values are
unchanged the effect does not re-run; otherwise the previous cleanup
(`clearInterval`) runs and the body is executed afresh. -/
def commitAlert (rt : AlertRuntime) (aa am : Bool) : AlertRuntime × Bool :=
  if rt.deps = some (aa, am) then (rt, false)
  else
    let body := alertEffectBody aa am
    ({ timer := body.1, deps := some (aa, am) }, body.2)

/-- A whole sequence of commits, starting before the component mounted. -/
def processCommits (cs : List (Bool × Bool)) : AlertRuntime :=
  cs.foldl (fun rt p => (commitAlert rt p.1 p.2).1) ⟨none, none⟩

/-- The timer installed after a run of the effect is determined by the
dependency values of that run. -/
def AlertInv (rt : AlertRuntime) : Prop :=
  ∀ aa am : Bool, rt.deps = some (aa, am) →
    rt.timer = (if aa && !am then some ⟨2000⟩ else none)

theorem commitAlert_inv (rt : AlertRuntime) (aa am : Bool) (h : AlertInv rt) :
    AlertInv (commitAlert rt aa am).1 := by
  intro aa2 am2 hdeps
  by_cases hsame : rt.deps = some (aa, am)
  · simp only [commitAlert, if_pos hsame] at hdeps ⊢
    exact h aa2 am2 hdeps
  · simp only [commitAlert, if_neg hsame] at hdeps ⊢
    obtain ⟨rfl, rfl⟩ : aa = aa2 ∧ am = am2 := by simpa using hdeps
    simp only [alertEffectBody, playAlertSound]
    by_cases haa : aa = true <;> by_cases ham : am = true <;> simp [haa, ham]

theorem commitAlert_deps (rt : AlertRuntime) (aa am : Bool) :
    (commitAlert rt aa am).1.deps = some (aa, am) := by
  unfold commitAlert
  split
  · rename_i hsame; simpa using hsame
  · rfl

theorem processCommits_inv (cs : List (Bool × Bool)) :
    AlertInv (processCommits cs) := by
  suffices h : ∀ rt : AlertRuntime, AlertInv rt →
      AlertInv (cs.foldl (fun rt p => (commitAlert rt p.1 p.2).1) rt) by
    apply h
    intro aa am hdeps
    simp at hdeps
  induction cs with
  | nil => intro rt h; exact h
  | cons p ps ih =>
      intro rt h
      exact ih _ (commitAlert_inv rt p.1 p.2 h)

/-- C9: after any commit sequence, the repeating 2000 ms cue timer is
installed exactly while `alertActive && !alertMuted` held at the latest
commit — so the timer is cleared in the very commit where `alertActive`
turns false or `alertMuted` turns true, and never outlives its governing
condition; and whenever the effect re-runs (its dependencies changed) with
the condition true, a cue is emitted immediately in that same commit. -/
theorem alert_timer_governed :
    (∀ (cs : List (Bool × Bool)) (aa am : Bool),
      (processCommits (cs ++ [(aa, am)])).timer =
        (if aa && !am then some ⟨2000⟩ else none)) ∧
    (∀ (rt : AlertRuntime) (aa am : Bool),
      rt.deps ≠ some (aa, am) → (aa && !am) = true →
      (commitAlert rt aa am).2 = true ∧
      (commitAlert rt aa am).1.timer = some ⟨2000⟩) := by
  constructor
  · intro cs aa am
    have hfold : processCommits (cs ++ [(aa, am)]) =
        (commitAlert (processCommits cs) aa am).1 := by
      simp [processCommits, List.foldl_append]
    rw [hfold]
    exact commitAlert_inv (processCommits cs) aa am (processCommits_inv cs)
      aa am (commitAlert_deps (processCommits cs) aa am)
  · intro rt aa am hne hcond
    obtain ⟨rfl, rfl⟩ : aa = true ∧ am = false := by
      constructor
      · cases aa
        · simp at hcond
        · rfl
      · cases am
        · rfl
        · simp at hcond
    constructor
    · simp [commitAlert, if_neg hne, alertEffectBody, playAlertSound]
    · simp [commitAlert, if_neg hne, alertEffectBody]

/-- Witness for C9 at concrete inputs: a mount followed by an
alert-on/unmuted commit installs the 2000 ms timer; a following muted
commit removes it; and a fresh effect run with the condition true emits an
immediate cue. -/
theorem alert_timer_governed_witness :
    (processCommits ([(false, false)] ++ [(true, false)])).timer =
      some ⟨2000⟩ ∧
    (processCommits ([(false, false), (true, false)] ++ [(true, true)])).timer =
      none ∧
    ((⟨none, none⟩ : AlertRuntime).deps ≠ some (true, false) ∧
      (commitAlert ⟨none, none⟩ true false).2 = true) := by
  refine ⟨?_, ?_, ?_, ?_⟩
  · exact alert_timer_governed.1 [(false, false)] true false
  · exact alert_timer_governed.1 [(false, false), (true, false)] true true
  · decide
  · exact (alert_timer_governed.2 ⟨none, none⟩ true false (by decide) (by decide)).1

/-- Characters used by the JSON scanner. -/
def lbrace : Char := '{'

def rbrace : Char := '}'

def quoteChar : Char := '\"'

def bslashChar : Char := '\\'

/-- JSON values (the subset relevant to the endpoint: the prompt instructs
the model to answer with a single object of integers, strings and booleans;
numbers are modelled as integers and the rare escapes are the common
single-character ones — `\\u` escapes are outside the modelled subset). -/
inductive JVal where
  | jnull
  | jbool (b : Bool)
  | jnum (n : Int)
  | jstr (s : List Char)
  | jarr (xs : List JVal)
  | jobj (fs : List (List Char × JVal))

def isWsChar (c : Char) : Bool :=
  c = ' ' || c = '\n' || c = '\t' || c = '\r'

def skipWs : List Char → List Char
  | [] => []
  | c :: cs => if isWsChar c then skipWs cs else c :: cs

/-- A single-character escape after a backslash inside a JSON string. -/
def escChar (c : Char) : Option Char :=
  if c = quoteChar then some quoteChar
  else if c = bslashChar then some bslashChar
  else if c = '/' then some '/'
  else if c = 'n' then some '\n'
  else if c = 't' then some '\t'
  else if c = 'r' then some '\r'
  else none

def expectChars : List Char → List Char → Option (List Char)
  | [], cs => some cs
  | _ :: _, [] => none
  | p :: ps, c :: cs => if c = p then expectChars ps cs else none

def digitVal (c : Char) : Nat := c.toNat - 48

def isDigitChar (c : Char) : Bool := '0' ≤ c && c ≤ '9'

def digitsToNat (ds : List Char) : Nat :=
  ds.foldl (fun a c => a * 10 + digitVal c) 0

/-- An integer JSON number: optional minus sign, one or more digits. -/
def parseNumFrom (cs : List Char) : Option (JVal × List Char) :=
  match cs with
  | [] => none
  | c :: rest =>
    if c = '-' then
      let ds := rest.takeWhile isDigitChar
      if ds.isEmpty then none
      else some (.jnum (-(digitsToNat ds : Int)), rest.drop ds.length)
    else
      let ds := cs.takeWhile isDigitChar
      if ds.isEmpty then none
      else some (.jnum (digitsToNat ds : Int), cs.drop ds.length)

mutual

/-- Recursive-descent JSON value parser (fuelled). -/
def parseVal : Nat → List Char → Option (JVal × List Char)
  | 0, _ => none
  | Nat.succ fuel, cs =>
    match skipWs cs with
    | [] => none
    | c :: rest =>
      if c = quoteChar then
        match parseStrBody fuel rest with
        | some (s, r) => some (.jstr s, r)
        | none => none
      else if c = lbrace then
        match skipWs rest with
        | d :: r2 =>
          if d = rbrace then some (.jobj [], r2)
          else parseMembers fuel (d :: r2) []
        | [] => none
      else if c = '[' then
        match skipWs rest with
        | d :: r2 =>
          if d = ']' then some (.jarr [], r2)
          else parseItems fuel (d :: r2) []
        | [] => none
      else if c = 't' then
        match expectChars ['r', 'u', 'e'] rest with
        | some r => some (.jbool true, r)
        | none => none
      else if c = 'f' then
        match expectChars ['a', 'l', 's', 'e'] rest with
        | some r => some (.jbool false, r)
        | none => none
      else if c = 'n' then
        match expectChars ['u', 'l', 'l'] rest with
        | some r => some (.jnull, r)
        | none => none
      else parseNumFrom (c :: rest)

/-- Body of a JSON string, after the opening quote. -/
def parseStrBody : Nat → List Char → Option (List Char × List Char)
  | 0, _ => none
  | Nat.succ fuel, cs =>
    match cs with
    | [] => none
    | c :: rest =>
      if c = quoteChar then some ([], rest)
      else if c = bslashChar then
        match rest with
        | [] => none
        | e :: rest2 =>
          match escChar e with
          | some ec =>
            match parseStrBody fuel rest2 with
            | some (body, r) => some (ec :: body, r)
            | none => none
          | none => none
      else
        match parseStrBody fuel rest with
        | some (body, r) => some (c :: body, r)
        | none => none

/-- Members of a JSON object, after the opening brace (nonempty case). -/
def parseMembers : Nat → List Char → List (List Char × JVal) →
    Option (JVal × List Char)
  | 0, _, _ => none
  | Nat.succ fuel, cs, acc =>
    match skipWs cs with
    | [] => none
    | c :: rest =>
      if c = quoteChar then
        match parseStrBody fuel rest with
        | some (key, r1) =>
          match skipWs r1 with
          | d :: r2 =>
            if d = ':' then
              match parseVal fuel r2 with
              | some (v, r3) =>
                match skipWs r3 with
                | e :: r4 =>
                  if e = ',' then parseMembers fuel r4 (acc ++ [(key, v)])
                  else if e = rbrace then some (.jobj (acc ++ [(key, v)]), r4)
                  else none
                | [] => none
              | none => none
            else none
          | [] => none
        | none => none
      else none

/-- Items of a JSON array, after the opening bracket (nonempty case). -/
def parseItems : Nat → List Char → List JVal → Option (JVal × List Char)
  | 0, _, _ => none
  | Nat.succ fuel, cs, acc =>
    match parseVal fuel cs with
    | some (v, r1) =>
      match skipWs r1 with
      | e :: r2 =>
        if e = ',' then parseItems fuel r2 (acc ++ [v])
        else if e = ']' then some (.jarr (acc ++ [v]), r2)
        else none
      | [] => none
    | none => none

end

/-- `JSON.parse`: parse one value and require only whitespace after it. -/
def jsonParse (cs : List Char) : Option JVal :=
  match parseVal (4 * cs.length + 16) cs with
  | some (v, rest) => if skipWs rest = [] then some v else none
  | none => none

/-- Index of the last `}` in the list, if any. -/
def lastCloseIdx : List Char → Option Nat
  | [] => none
  | c :: cs =>
    match lastCloseIdx cs with
    | some j => some (j + 1)
    | none => if c = rbrace then some 0 else none

/-- The regex step `textContent.match(/\x7b[\s\S]*\x7d/)`: a backtracking
engine tries start positions left to right; at a `{` the greedy `[\s\S]*`
backtracks from the end of the input to the last `}`, so the match runs
from the leftmost `{` that has some `}` after it to the last `}` of the
whole text. -/
def routeExtract : List Char → Option (List Char)
  | [] => none
  | c :: rest =>
    if c = lbrace then
      match lastCloseIdx rest with
      | some j => some (c :: rest.take (j + 1))
      | none => routeExtract rest
    else routeExtract rest

/-- Index of the first `{` in the list, if any. -/
def firstOpenIdx : List Char → Option Nat
  | [] => none
  | c :: cs =>
    if c = lbrace then some 0 else (firstOpenIdx cs).map (· + 1)

/-- Declarative description of the extracted span: from the first `{` to the
last `}`, provided the former precedes the latter. -/
def spanFirstToLast (cs : List Char) : Option (List Char) :=
  match firstOpenIdx cs, lastCloseIdx cs with
  | some i, some j => if i < j then some ((cs.drop i).take (j - i + 1)) else none
  | _, _ => none

/-- Field lookup in a decoded JSON object; later duplicate keys win, as for
a JavaScript object produced by `JSON.parse`. -/
def lookupField (fs : List (List Char × JVal)) (k : List Char) : Option JVal :=
  match fs with
  | [] => none
  | (k2, v) :: rest =>
    match lookupField rest k with
    | some v2 => some v2
    | none => if k2 = k then some v else none

def decodeConfidence (v : JVal) : Option Confidence :=
  match v with
  | .jstr s =>
    if s = "high".data then some .high
    else if s = "medium".data then some .medium
    else if s = "low".data then some .low
    else none
  | _ => none

/-- Reading a parsed JSON object as an `AnalysisResult` with all four fields
present and well-typed (the spec's "decode as the AnalysisResult"). -/
def decodeResult (v : JVal) : Option AnalysisResult :=
  match v with
  | .jobj fs =>
    match lookupField fs "level".data, lookupField fs "confidence".data,
        lookupField fs "description".data,
        lookupField fs "feeder_visible".data with
    | some (.jnum n), some cv, some (.jstr d), some (.jbool b) =>
      match decodeConfidence cv with
      | some conf => some ⟨n, conf, String.mk d, b, none⟩
      | none => none
    | _, _, _, _ => none
  | _ => none

/-- The synthetic parse-failure object built by the route's catch branch:
`level = -1, confidence = "low", description = "Could not parse AI response",
feeder_visible = false`. -/
def syntheticJson : JVal :=
  .jobj [("level".data, .jnum (-1)),
         ("confidence".data, .jstr "low".data),
         ("description".data, .jstr "Could not parse AI response".data),
         ("feeder_visible".data, .jbool false)]

/-- The route's parsing step: run the regex on the model's text response;
on a match, `JSON.parse` the matched span and return whatever it yields
(no field validation); if there is no match or parsing throws, return the
synthetic parse-failure object. -/
def routeParseResult (cs : List Char) : JVal :=
  match routeExtract cs with
  | some sub =>
    match jsonParse sub with
    | some v => v
    | none => syntheticJson
  | none => syntheticJson

/-- The backtracking regex engine and the declarative first-`{`-to-last-`}`
span description agree on every input. -/
theorem routeExtract_eq_span (cs : List Char) :
    routeExtract cs = spanFirstToLast cs := by
  induction cs with
  | nil => rfl
  | cons c rest ih =>
    by_cases hc : c = lbrace
    · subst hc
      cases hlast : lastCloseIdx rest with
      | some j =>
          have h2 : lastCloseIdx (lbrace :: rest) = some (j + 1) := by
            simp [lastCloseIdx, hlast]
          have h3 : (0 : Nat) < j + 1 := by omega
          simp [routeExtract, spanFirstToLast, firstOpenIdx, h2, hlast, h3]
      | none =>
          have h2 : lastCloseIdx (lbrace :: rest) = none := by
            simp [lastCloseIdx, hlast, lbrace, rbrace]
          simp only [routeExtract, if_pos rfl, hlast]
          rw [ih]
          simp only [spanFirstToLast, h2, hlast]
          cases firstOpenIdx (lbrace :: rest) <;> cases firstOpenIdx rest <;> rfl
    · have hfo : firstOpenIdx (c :: rest) = (firstOpenIdx rest).map (· + 1) := by
        simp [firstOpenIdx, hc]
      simp only [routeExtract, if_neg hc]
      rw [ih]
      cases hfo2 : firstOpenIdx rest with
      | none => simp [spanFirstToLast, hfo, hfo2]
      | some i =>
          cases hlast : lastCloseIdx rest with
          | some j =>
              have h2 : lastCloseIdx (c :: rest) = some (j + 1) := by
                simp [lastCloseIdx, hlast]
              simp [spanFirstToLast, hfo, hfo2, hlast, h2, Option.map_some,
                Nat.add_sub_add_right, Nat.add_lt_add_iff_right]
          | none =>
              have h2 : lastCloseIdx (c :: rest) =
                  (if c = rbrace then some 0 else none) := by
                simp [lastCloseIdx, hlast]
              by_cases hcr : c = rbrace
              · rw [if_pos hcr] at h2
                simp [spanFirstToLast, hfo, hfo2, hlast, h2, Option.map_some,
                  Nat.not_lt_zero]
              · rw [if_neg hcr] at h2
                simp [spanFirstToLast, hfo, hfo2, hlast, h2]

/-- A well-formed response object for level 50. -/
def okObjText : String :=
  "\x7b\"level\":50,\"confidence\":\"high\",\"description\":\"ok\",\"feeder_visible\":true\x7d"

/-- A model response consisting of a well-formed result object followed by a
second object-shaped fragment. -/
def cexText : String := okObjText ++ " \x7b\"a\":1\x7d"

/-- The JSON value of `okObjText`. -/
def okObjVal : JVal :=
  .jobj [("level".data, .jnum 50),
         ("confidence".data, .jstr "high".data),
         ("description".data, .jstr "ok".data),
         ("feeder_visible".data, .jbool true)]

/-- C2 counterexample: in `cexText` the first well-formed object-shaped
substring is the prefix `okObjText`, which parses and decodes to a complete
level-50 `AnalysisResult`; the endpoint's parsing step, however, matches
from the first `\x7b` to the LAST `\x7d` (the greedy regex), so it grabs
both objects at once, `JSON.parse` throws on that span, and the synthetic
parse-failure result is returned instead of the decoded first object. -/
theorem route_first_object_cex :
    cexText.data = okObjText.data ++ (" \x7b\"a\":1\x7d").data ∧
    jsonParse okObjText.data = some okObjVal ∧
    decodeResult okObjVal =
      some (AnalysisResult.mk 50 .high "ok" true none) ∧
    routeExtract cexText.data = some cexText.data ∧
    jsonParse cexText.data = none ∧
    routeParseResult cexText.data = syntheticJson ∧
    decodeResult syntheticJson =
      some (AnalysisResult.mk (-1) .low "Could not parse AI response" false none) ∧
    some (AnalysisResult.mk 50 .high "ok" true none) ≠
      some (AnalysisResult.mk (-1) .low "Could not parse AI response" false none) := by
  refine ⟨by decide, rfl, by decide, by decide, rfl, rfl, by decide, by decide⟩

/-- C2 amended: the endpoint's parsing step takes the single substring
running from the first `\x7b` to the last `\x7d` of the response text
(a match exists exactly when some `\x7b` precedes the last `\x7d`), decodes
that span with `JSON.parse`, and returns whatever JSON value results with no
field validation; if there is no such span, or the span fails to decode,
the synthetic parse-failure result (level = -1, confidence = low,
feeder_visible = false) is returned.  It does not search for the first
well-formed object-shaped substring. -/
theorem route_parse_span_amended :
    (∀ cs : List Char, spanFirstToLast cs = none →
      routeParseResult cs = syntheticJson) ∧
    (∀ cs sub : List Char, spanFirstToLast cs = some sub →
      jsonParse sub = none → routeParseResult cs = syntheticJson) ∧
    (∀ (cs sub : List Char) (v : JVal), spanFirstToLast cs = some sub →
      jsonParse sub = some v → routeParseResult cs = v) ∧
    decodeResult syntheticJson =
      some (AnalysisResult.mk (-1) .low "Could not parse AI response" false none) := by
  refine ⟨?_, ?_, ?_, by decide⟩
  · intro cs hspan
    unfold routeParseResult
    rw [routeExtract_eq_span, hspan]
  · intro cs sub hspan hparse
    unfold routeParseResult
    rw [routeExtract_eq_span, hspan]
    simp [hparse]
  · intro cs sub v hspan hparse
    unfold routeParseResult
    rw [routeExtract_eq_span, hspan]
    simp [hparse]

/-- Witness for the C2 amended theorem at concrete inputs: a braceless text
yields the synthetic result, and a clean single-object text yields its
decoded object. -/
theorem route_parse_span_amended_witness :
    (spanFirstToLast "hello".data = none ∧
      routeParseResult "hello".data = syntheticJson) ∧
    (spanFirstToLast okObjText.data = some okObjText.data ∧
      jsonParse okObjText.data = some okObjVal ∧
      routeParseResult okObjText.data = okObjVal) :=
  ⟨⟨by decide, route_parse_span_amended.1 "hello".data (by decide)⟩,
   ⟨by decide, rfl,
    route_parse_span_amended.2.2.1 okObjText.data okObjText.data okObjVal
      (by decide) rfl⟩⟩

end HummiGuard
